import Mathlib

/-!
Shallow embedding of the profile and document store of `src/bot.py`,
the study-assistant bot of this repository.

Python dicts are modelled as ordered association lists, since Python
dicts preserve insertion order and the code relies on that order in
`delete_subject`.  The profile of a single user is modelled explicitly
(`Profile`); the durable JSON file `profiles.json` is a second copy of
the profile (`PState.disk`).  The on-disk PDF files of one user are a
map from path to content (`DocStore`).
-/

set_option autoImplicit false

namespace StudyCapy

/-- Python `subject_name.lower().replace(" ", "_")` as used in
`UserProfileManager.create_subject`, `set_active_subject` and
`delete_subject` (src/bot.py lines 64, 95, 168): lowercase every
character, then replace the space character (only U+0020) by an
underscore. -/
def normalizeKey (s : String) : String :=
  String.mk ((s.data.map Char.toLower).map (fun c => if c = ' ' then '_' else c))

/-- The whitespace characters of Python `str` (space, tab, newline,
carriage return, vertical tab, form feed). -/
def isPyWhitespace (c : Char) : Bool :=
  c = ' ' || c = '\t' || c = '\n' || c = '\r' || c = '\x0b' || c = '\x0c'

/-- The key derivation as the specification words it: lowercase the
name and replace every whitespace character with an underscore.  Stated
only to compare that wording with `normalizeKey`, which is what the
code computes. -/
def normalizeKeySpec (s : String) : String :=
  String.mk ((s.data.map Char.toLower).map (fun c => if isPyWhitespace c then '_' else c))

/-- A subject record as stored in `profiles.json`
(`create_subject`, src/bot.py lines 74-79).  The field `key` models the
`"key"` entry that `get_active_subject` (src/bot.py line 112) writes
into the stored dict: it is absent (`none`) until the first such read. -/
structure Subject where
  name : String
  game : String
  created : Bool
  question_bank : List String
  key : Option String
  deriving DecidableEq

/-- The dict literal built at src/bot.py lines 74-79. -/
def Subject.fresh (name game : String) : Subject :=
  { name := name, game := game, created := true, question_bank := [], key := none }

/-- One user's profile as created by `get_user_profile`
(src/bot.py lines 53-57). -/
structure Profile where
  subjects : List (String × Subject)
  active_subject : Option String
  deriving DecidableEq

/-- The profile `get_user_profile` creates for a new user. -/
def Profile.empty : Profile := { subjects := [], active_subject := none }

/-- Python `key in dict` on the subjects dict. -/
def hasKey : List (String × Subject) → String → Bool
  | [], _ => false
  | e :: t, k => if e.1 = k then true else hasKey t k

/-- Python `dict[key]` / `dict.get(key)` on the subjects dict. -/
def findSubject : List (String × Subject) → String → Option Subject
  | [], _ => none
  | e :: t, k => if e.1 = k then some e.2 else findSubject t k

/-- Python `dict[key] = value` for a key that is already present: the
entry keeps its position in the dict's insertion order. -/
def updateSubject (subs : List (String × Subject)) (k : String) (s : Subject) :
    List (String × Subject) :=
  subs.map (fun e => if e.1 = k then (k, s) else e)

/-- `UserProfileManager.create_subject` (src/bot.py lines 61-86), acting
on the in-memory profile: derive the key, refuse a duplicate, insert the
fresh record (dict insertion appends), and make it active when no
subject was active.  The folder creation and the `_save_profiles` call
are modelled separately (`create_subjectP`). -/
def create_subject (p : Profile) (subject_name : String) (game : String) : Bool × Profile :=
  let subject_key := normalizeKey subject_name
  if hasKey p.subjects subject_key then (false, p)
  else
    let subjects := p.subjects ++ [(subject_key, Subject.fresh subject_name game)]
    let active := if p.active_subject = none then some subject_key else p.active_subject
    (true, { subjects := subjects, active_subject := active })

/-- `UserProfileManager.set_active_subject` (src/bot.py lines 92-102). -/
def set_active_subject (p : Profile) (subject_name : String) : Bool × Profile :=
  let subject_key := normalizeKey subject_name
  if hasKey p.subjects subject_key then
    (true, { p with active_subject := some subject_key })
  else (false, p)

/-- `UserProfileManager.get_active_subject` (src/bot.py lines 104-113).
The Python code writes `subject_info["key"] = subject_key` into the dict
stored in the profile (the returned dict is that same object), so the
read also updates the profile.  The inner `none` branch corresponds to
`profile["subjects"][subject_key]` raising `KeyError`; it is unreachable
for reachable profiles (see the active-subject invariant below). -/
def get_active_subject (p : Profile) : Option Subject × Profile :=
  match p.active_subject with
  | none => (none, p)
  | some subject_key =>
    match findSubject p.subjects subject_key with
    | none => (none, p)
    | some s =>
      let s := { s with key := some subject_key }
      (some s, { p with subjects := updateSubject p.subjects subject_key s })

/-- `UserProfileManager.set_subject_game` (src/bot.py lines 115-120). -/
def set_subject_game (p : Profile) (subject_key game : String) : Profile :=
  match findSubject p.subjects subject_key with
  | none => p
  | some s => { p with subjects := updateSubject p.subjects subject_key { s with game := game } }

/-- `UserProfileManager.add_question_to_bank` (src/bot.py lines 122-131).
The Python guard that re-creates a missing `question_bank` entry is
vacuous here: every record built by `create_subject` carries the list. -/
def add_question_to_bank (p : Profile) (subject_key question : String) : Bool × Profile :=
  match findSubject p.subjects subject_key with
  | none => (false, p)
  | some s =>
    let s2 := { s with question_bank := s.question_bank ++ [question] }
    (true, { p with subjects := updateSubject p.subjects subject_key s2 })

/-- `UserProfileManager.get_question_bank` (src/bot.py lines 133-138). -/
def get_question_bank (p : Profile) (subject_key : String) : List String :=
  match findSubject p.subjects subject_key with
  | none => []
  | some s => s.question_bank

/-- `UserProfileManager.remove_question_from_bank` (src/bot.py lines
140-150): the index is a Python int, accepted only when
`0 <= index < len(questions)`. -/
def remove_question_from_bank (p : Profile) (subject_key : String) (index : Int) : Bool × Profile :=
  match findSubject p.subjects subject_key with
  | none => (false, p)
  | some s =>
    if 0 ≤ index ∧ index < (s.question_bank.length : Int) then
      let s2 := { s with question_bank := s.question_bank.eraseIdx index.toNat }
      (true, { p with subjects := updateSubject p.subjects subject_key s2 })
    else (false, p)

/-- The `!removeq` command handler `remove_question` (src/bot.py lines
574-590): translates the 1-based display number to the 0-based index. -/
def remove_question (p : Profile) (subject_key : String) (question_num : Int) : Bool × Profile :=
  remove_question_from_bank p subject_key (question_num - 1)

/-- `UserProfileManager.delete_subject` (src/bot.py lines 165-187):
remove the entry (`del` keeps the insertion order of the rest) and, when
the deleted subject was active, make `next(iter(dict.keys()))` — the
first remaining key in insertion order — active, or `None` when none
remain.  The folder removal by `shutil.rmtree` is outside the profile. -/
def delete_subject (p : Profile) (subject_name : String) : Bool × Profile :=
  let subject_key := normalizeKey subject_name
  if hasKey p.subjects subject_key then
    let subjects := p.subjects.filter (fun e => decide (e.1 ≠ subject_key))
    let active :=
      if p.active_subject = some subject_key then
        match subjects with
        | [] => none
        | e :: _ => some e.1
      else p.active_subject
    (true, { subjects := subjects, active_subject := active })
  else (false, p)

/-! ### Persistence: the in-memory table and the JSON file -/

/-- The contents of the durable `profiles.json` for the modelled user:
either a fully written table, or the truncated/partial bytes left
behind by an interrupted `open("w")` + `json.dump` write. -/
inductive DiskFile where
  | table (p : Profile)
  | corrupt
  deriving DecidableEq

/-- The in-memory profile together with the durable file that
`_save_profiles` writes. -/
structure PState where
  mem : Profile
  disk : DiskFile
  deriving DecidableEq

/-- `UserProfileManager._save_profiles` (src/bot.py lines 45-48):
`open(profiles_file, "w")` truncates the file and `json.dump` then
writes the in-memory table.  On success the file holds that table.
When the write raises (`saveOk = false`), the raw exception propagates
(`Except.error`) and the file is left in whatever state the
interrupted write produced — the prior content only if `open` itself
failed, otherwise truncated or partially written bytes; the model takes
that leftover state as an unconstrained parameter. -/
def save_profiles (saveOk : Bool) (leftover : DiskFile) (st : PState) : Except PState PState :=
  if saveOk then Except.ok { st with disk := DiskFile.table st.mem }
  else Except.error { st with disk := leftover }

/-- Outcome of a mutating operation that may end in a `_save_profiles`
call: either a normal return value with the resulting state, or the
I/O exception escaping to the caller with the state as the exception
leaves it. -/
inductive SaveOutcome where
  | ok (r : Bool) (st : PState)
  | ioError (st : PState)
  deriving DecidableEq

/-- `get_active_subject` lifted to the persistent state: it mutates only
the in-memory table and performs no save of its own. -/
def get_active_subjectP (st : PState) : Option Subject × PState :=
  ((get_active_subject st.mem).1, { st with mem := (get_active_subject st.mem).2 })

/-! ### The document store -/

/-- Path of one stored file,
`user_data/(user_id)/(subject_key)/(category)/(filename)`, for a single
user. -/
structure DocPath where
  subject : String
  category : String
  filename : String
  deriving DecidableEq

/-- The PDF files of one user, path to content, in creation order. -/
abbrev DocStore := List (DocPath × String)

/-- Writing a file: replaces the content in place when the path already
exists, otherwise creates the file. -/
def writeFile (fs : DocStore) (p : DocPath) (content : String) : DocStore :=
  if fs.any (fun e => e.1 = p) then
    fs.map (fun e => if e.1 = p then (p, content) else e)
  else fs ++ [(p, content)]

/-- Reading a file by exact path. -/
def lookupDoc : DocStore → DocPath → Option String
  | [], _ => none
  | e :: t, p => if e.1 = p then some e.2 else lookupDoc t p

/-- Python `s.endswith(suffix)`, on characters. -/
def pyEndsWith (s suffix : String) : Bool :=
  suffix.data.length ≤ s.data.length &&
    s.data.drop (s.data.length - suffix.data.length) == suffix.data

/-- `pathlib.Path.glob("*.pdf")` as used at src/bot.py lines 213, 227
and 262: the `*` of `pathlib` matches any characters, a leading dot
included (unlike the `glob` module, `pathlib` has no hidden-file
special case), so the match is exactly the `.pdf` suffix check. -/
def pdfGlobMatch (fname : String) : Bool :=
  pyEndsWith fname ".pdf"

/-- `Path.stem` of a name matching the `*.pdf` glob: drops the `.pdf`
suffix — except for the bare name `".pdf"`, whose only dot is the
leading one, which `pathlib` reads as a hidden-file marker rather than
an extension: its suffix is empty and its stem is the whole name. -/
def pdfStem (fname : String) : String :=
  if fname = ".pdf" then fname
  else String.mk (fname.data.take (fname.data.length - 4))

/-- The glob `*.pdf` over one category directory of one subject, in
store order. -/
def globPdf (docs : DocStore) (subject_key cat : String) : DocStore :=
  docs.filter (fun e =>
    e.1.subject == subject_key && e.1.category == cat && pdfGlobMatch e.1.filename)

/-- The whole state a `DocumentManager` operation touches: the (single)
user's profile and the user's files. -/
structure SysState where
  profile : Profile
  docs : DocStore
  deriving DecidableEq

/-- The category directory chosen from the `folder_type` argument
(src/bot.py line 243). -/
def catOf (folder_type : String) : String :=
  if folder_type = "lecture" then "lectures" else "practice_tests"

/-- `DocumentManager.save_attachment` (src/bot.py lines 233-251): reject
a name not ending in `.pdf` before anything else, then resolve the
active subject (a mutating read, see `get_active_subject`), then write
the bytes at `(subject key)/(category)/(filename)`.  The inner `none`
branch on the key field is unreachable: `get_active_subject` always sets
it on the subject it returns.  `attachment.save` is modelled as
succeeding. -/
def save_attachment (fname content folder_type : String) (st : SysState) : Bool × SysState :=
  if !(pyEndsWith fname ".pdf") then (false, st)
  else
    match get_active_subject st.profile with
    | (none, p) => (false, { st with profile := p })
    | (some subj, p) =>
      match subj.key with
      | none => (false, { st with profile := p })
      | some k =>
        (true, { profile := p,
                 docs := writeFile st.docs ⟨k, catOf folder_type, fname⟩ content })

/-- `DocumentManager.list_files` (src/bot.py lines 253-262): no active
subject yields `[]`; otherwise the stems of the `*.pdf` files of the
chosen category directory. -/
def list_files (folder_type : String) (st : SysState) : List String × SysState :=
  match get_active_subject st.profile with
  | (none, p) => ([], { st with profile := p })
  | (some subj, p) =>
    match subj.key with
    | none => ([], { st with profile := p })
    | some k =>
      ((globPdf st.docs k (catOf folder_type)).map (fun e => pdfStem e.1.filename),
       { st with profile := p })

/-- `DocumentManager.extract_text_from_pdf` (src/bot.py lines 193-203).
The PyPDF2 collaborator is the injected `ext`; `none` models the reader
raising.  On success the code appends a newline after the page text (the
page loop is modelled at document granularity); on an exception it
prints and returns the text accumulated so far, which is the empty
string when the reader fails at open. -/
def extract_text_from_pdf (ext : String → Option String) (content : String) : String :=
  match ext content with
  | some t => t ++ "\n"
  | none => ""

/-- `DocumentManager.get_all_lectures_with_names` (src/bot.py lines
205-217): no active subject yields `{}`; otherwise every `*.pdf` file of
the `lectures` directory is mapped, keyed by stem, to
`"[SOURCE: " ++ stem ++ "]\n"` followed by whatever
`extract_text_from_pdf` returned for it. -/
def get_all_lectures_with_names (ext : String → Option String) (st : SysState) :
    List (String × String) × SysState :=
  match get_active_subject st.profile with
  | (none, p) => ([], { st with profile := p })
  | (some subj, p) =>
    match subj.key with
    | none => ([], { st with profile := p })
    | some k =>
      ((globPdf st.docs k "lectures").map (fun e =>
        (pdfStem e.1.filename,
         "[SOURCE: " ++ pdfStem e.1.filename ++ "]\n" ++ extract_text_from_pdf ext e.2)),
       { st with profile := p })

/-! ### Reachable profiles -/

/-- The profile operations of `UserProfileManager`, as far as they
mutate a profile. -/
inductive Op where
  | create (subject_name game : String)
  | setActive (subject_name : String)
  | getActive
  | setGame (subject_key game : String)
  | addQ (subject_key question : String)
  | removeQ (subject_key : String) (index : Int)
  | delete (subject_name : String)

/-- Apply one operation to a profile, keeping only the state. -/
def applyOp (p : Profile) : Op → Profile
  | .create n g => (create_subject p n g).2
  | .setActive n => (set_active_subject p n).2
  | .getActive => (get_active_subject p).2
  | .setGame k g => set_subject_game p k g
  | .addQ k q => (add_question_to_bank p k q).2
  | .removeQ k i => (remove_question_from_bank p k i).2
  | .delete n => (delete_subject p n).2

/-- Profiles reachable from the fresh profile `get_user_profile`
creates, through any sequence of operations. -/
inductive Reachable : Profile → Prop
  | init : Reachable Profile.empty
  | step {p : Profile} (op : Op) : Reachable p → Reachable (applyOp p op)

/-- Whether the Python method reaches its `_save_profiles` call on this
profile: every mutating method of `UserProfileManager` flushes exactly
on its success path (`create_subject` line 85, `set_active_subject`
line 101, `set_subject_game` line 120, `add_question_to_bank` line 129,
`remove_question_from_bank` line 148, `delete_subject` line 186);
`get_active_subject` never flushes. -/
def opSaves (p : Profile) : Op → Bool
  | .create n g => (create_subject p n g).1
  | .setActive n => (set_active_subject p n).1
  | .getActive => false
  | .setGame k _ => (findSubject p.subjects k).isSome
  | .addQ k q => (add_question_to_bank p k q).1
  | .removeQ k i => (remove_question_from_bank p k i).1
  | .delete n => (delete_subject p n).1

/-- A profile operation together with its persistence: every mutating
method mutates the in-memory dict first and calls `_save_profiles`
last, so when the flush raises the in-memory mutation is already
applied, the raw exception escapes, and the file holds whatever the
interrupted write left behind (`leftover`). -/
def applyOpP (saveOk : Bool) (leftover : DiskFile) (st : PState) (op : Op) : SaveOutcome :=
  let p2 := applyOp st.mem op
  if opSaves st.mem op then
    match save_profiles saveOk leftover { st with mem := p2 } with
    | Except.ok st2 => SaveOutcome.ok true st2
    | Except.error st2 => SaveOutcome.ioError st2
  else SaveOutcome.ok false { st with mem := p2 }

/-- The active-subject invariant: a set `active_subject` names an
existing subject. -/
def ActiveInv (p : Profile) : Prop :=
  ∀ k, p.active_subject = some k → hasKey p.subjects k = true

/-! ### Dictionary lemmas -/

theorem hasKey_append (xs ys : List (String × Subject)) (a : String) :
    hasKey (xs ++ ys) a = (hasKey xs a || hasKey ys a) := by
  induction xs with
  | nil => simp [hasKey]
  | cons e t ih => by_cases h : e.1 = a <;> simp [hasKey, h, ih]

theorem hasKey_updateSubject (subs : List (String × Subject)) (k a : String) (s : Subject) :
    hasKey (updateSubject subs k s) a = hasKey subs a := by
  induction subs with
  | nil => rfl
  | cons e t ih =>
    simp only [updateSubject, List.map_cons] at ih ⊢
    have hfst : (if e.1 = k then (k, s) else e).1 = e.1 := by
      by_cases h : e.1 = k <;> simp [h]
    simp only [hasKey, hfst, ih]

theorem findSubject_updateSubject_self (subs : List (String × Subject)) (k : String)
    (s s₀ : Subject) (h : findSubject subs k = some s₀) :
    findSubject (updateSubject subs k s) k = some s := by
  induction subs with
  | nil => simp [findSubject] at h
  | cons e t ih =>
    by_cases he : e.1 = k
    · simp [updateSubject, findSubject, he]
    · simp [findSubject, he] at h
      simpa [updateSubject, findSubject, he] using ih h

theorem hasKey_cons_self (e : String × Subject) (t : List (String × Subject)) :
    hasKey (e :: t) e.1 = true := by
  simp [hasKey]

theorem hasKey_filter_ne (subs : List (String × Subject)) (a k : String)
    (h : hasKey subs a = true) (hne : a ≠ k) :
    hasKey (subs.filter (fun e => decide (e.1 ≠ k))) a = true := by
  induction subs with
  | nil => simp [hasKey] at h
  | cons e t ih =>
    by_cases hek : e.1 = k
    · have hea : ¬ e.1 = a := by
        intro hh
        exact hne (by rw [← hh]; exact hek)
      have hp : ¬ ((fun e : String × Subject => decide (e.1 ≠ k)) e = true) := by
        simp [hek]
      rw [List.filter_cons, if_neg hp]
      simp only [hasKey, if_neg hea] at h
      exact ih h
    · have hp : (fun e : String × Subject => decide (e.1 ≠ k)) e = true := by
        simp [hek]
      rw [List.filter_cons, if_pos hp]
      by_cases hea : e.1 = a
      · simp [hasKey, hea]
      · simp only [hasKey, if_neg hea] at h ⊢
        exact ih h

theorem eraseIdx_zero_eq_drop (l : List String) : l.eraseIdx 0 = l.drop 1 := by
  cases l <;> rfl

/-! ### Characterizations of the profile operations -/

theorem create_subject_dup (p : Profile) (n g : String)
    (h : hasKey p.subjects (normalizeKey n) = true) :
    create_subject p n g = (false, p) := by
  simp [create_subject, h]

theorem create_subject_new (p : Profile) (n g : String)
    (h : hasKey p.subjects (normalizeKey n) = false) :
    create_subject p n g =
      (true,
       { subjects := p.subjects ++ [(normalizeKey n, Subject.fresh n g)],
         active_subject :=
           if p.active_subject = none then some (normalizeKey n) else p.active_subject }) := by
  simp [create_subject, h]

theorem delete_subject_present (p : Profile) (n : String)
    (h : hasKey p.subjects (normalizeKey n) = true) :
    delete_subject p n =
      (true,
       { subjects := p.subjects.filter (fun e => decide (e.1 ≠ normalizeKey n)),
         active_subject :=
           if p.active_subject = some (normalizeKey n) then
             match p.subjects.filter (fun e => decide (e.1 ≠ normalizeKey n)) with
             | [] => none
             | e :: _ => some e.1
           else p.active_subject }) := by
  simp [delete_subject, h]

theorem get_active_subject_eq (p : Profile) (k : String) (s : Subject)
    (h1 : p.active_subject = some k) (h2 : findSubject p.subjects k = some s) :
    get_active_subject p =
      (some { s with key := some k },
       { p with subjects := updateSubject p.subjects k { s with key := some k } }) := by
  simp [get_active_subject, h1, h2]

/-! ### Document store lemmas -/

theorem lookupDoc_map_overwrite_self (t : DocStore) (p : DocPath) (c : String)
    (h : t.any (fun e => decide (e.1 = p)) = true) :
    lookupDoc (t.map (fun e => if e.1 = p then (p, c) else e)) p = some c := by
  induction t with
  | nil => simp at h
  | cons e t ih =>
    by_cases he : e.1 = p
    · simp [lookupDoc, he]
    · simp only [List.any_cons, Bool.or_eq_true, decide_eq_true_eq] at h
      rcases h with h | h
      · exact absurd h he
      · simpa [lookupDoc, he] using ih (by simpa using h)

theorem lookupDoc_cons (e : DocPath × String) (t : DocStore) (q : DocPath) :
    lookupDoc (e :: t) q = if e.1 = q then some e.2 else lookupDoc t q := rfl

theorem lookupDoc_map_overwrite_ne (t : DocStore) (p q : DocPath) (c : String) (h : q ≠ p) :
    lookupDoc (t.map (fun e => if e.1 = p then (p, c) else e)) q = lookupDoc t q := by
  induction t with
  | nil => rfl
  | cons e t ih =>
    by_cases he : e.1 = p
    · have heq : ¬ e.1 = q := by rw [he]; exact Ne.symm h
      rw [List.map_cons, if_pos he, lookupDoc_cons, lookupDoc_cons,
        if_neg (show ¬ ((p, c) : DocPath × String).1 = q from Ne.symm h), if_neg heq]
      exact ih
    · rw [List.map_cons, if_neg he, lookupDoc_cons, lookupDoc_cons]
      by_cases heq : e.1 = q
      · rw [if_pos heq, if_pos heq]
      · rw [if_neg heq, if_neg heq]
        exact ih

theorem lookupDoc_append_single_self (t : DocStore) (p : DocPath) (c : String)
    (h : t.any (fun e => decide (e.1 = p)) = false) :
    lookupDoc (t ++ [(p, c)]) p = some c := by
  induction t with
  | nil => simp [lookupDoc]
  | cons e t ih =>
    simp only [List.any_cons, Bool.or_eq_false_iff, decide_eq_false_iff_not] at h
    simpa [lookupDoc, h.1] using ih (by simp [h.2])

theorem lookupDoc_append_single_ne (t : DocStore) (p q : DocPath) (c : String) (h : q ≠ p) :
    lookupDoc (t ++ [(p, c)]) q = lookupDoc t q := by
  induction t with
  | nil => simp [lookupDoc, Ne.symm h]
  | cons e t ih =>
    by_cases heq : e.1 = q
    · simp [lookupDoc, heq]
    · simpa [lookupDoc, heq] using ih

theorem lookupDoc_writeFile_self (fs : DocStore) (p : DocPath) (c : String) :
    lookupDoc (writeFile fs p c) p = some c := by
  by_cases h : fs.any (fun e => decide (e.1 = p)) = true
  · rw [writeFile, if_pos h]
    exact lookupDoc_map_overwrite_self fs p c h
  · rw [writeFile, if_neg h]
    exact lookupDoc_append_single_self fs p c (Bool.eq_false_iff.mpr h)

theorem lookupDoc_writeFile_ne (fs : DocStore) (p q : DocPath) (c : String) (h : q ≠ p) :
    lookupDoc (writeFile fs p c) q = lookupDoc fs q := by
  by_cases hany : fs.any (fun e => decide (e.1 = p)) = true
  · rw [writeFile, if_pos hany]
    exact lookupDoc_map_overwrite_ne fs p q c h
  · rw [writeFile, if_neg hany]
    exact lookupDoc_append_single_ne fs p q c h

theorem mem_writeFile_self (fs : DocStore) (p : DocPath) (c : String) :
    (p, c) ∈ writeFile fs p c := by
  by_cases h : fs.any (fun e => decide (e.1 = p)) = true
  · rcases List.any_eq_true.mp h with ⟨x, hx, hpx⟩
    have hxp : x.1 = p := of_decide_eq_true hpx
    have hw : writeFile fs p c = fs.map (fun e => if e.1 = p then (p, c) else e) := by
      simp [writeFile, h]
    rw [hw]
    exact List.mem_map.mpr ⟨x, hx, by simp [hxp]⟩
  · have hfs : writeFile fs p c = fs ++ [(p, c)] := by
      simp only [writeFile]
      rw [if_neg h]
    rw [hfs]
    exact List.mem_append.mpr (Or.inr (List.mem_singleton.mpr rfl))

theorem delete_subject_absent (p : Profile) (n : String)
    (h : hasKey p.subjects (normalizeKey n) = false) :
    delete_subject p n = (false, p) := by
  simp [delete_subject, h]

theorem get_active_subject_state (p : Profile) :
    (get_active_subject p).2.active_subject = p.active_subject ∧
    ∀ a, hasKey (get_active_subject p).2.subjects a = hasKey p.subjects a := by
  cases hact : p.active_subject with
  | none => simp [get_active_subject, hact]
  | some k =>
    cases hf : findSubject p.subjects k with
    | none => simp [get_active_subject, hact, hf]
    | some s => simp [get_active_subject, hact, hf, hasKey_updateSubject]

/-! ### Claims -/

/-- C1, counterexample: the claim derives the key by replacing
*whitespace* with underscores, but the code replaces only the space
character (`.replace(" ", "_")`).  For the display name `"A\tB"` the
created and returned key is `"a\tb"`, which keeps the tab and differs
from the whitespace-normalized form `"a_b"`. -/
theorem C1_counterexample :
    (create_subject Profile.empty "A\tB" "g").1 = true ∧
    ((get_active_subject (create_subject Profile.empty "A\tB" "g").2).1).map Subject.key
      = some (some "a\tb") ∧
    "a\tb" ≠ normalizeKeySpec "A\tB" :=
  ⟨by decide, by decide, by decide⟩

/-- C1, amended: for every display name, `create_subject` derives the
subject key by lowercasing the name and replacing spaces (U+0020, not
all whitespace) with underscores, and when it is the user's first
subject (no subjects yet, none active), a subsequent
`get_active_subject` returns a subject whose key equals that normalized
form. -/
theorem C1_first_subject_key (p : Profile) (n g : String)
    (hs : p.subjects = []) (ha : p.active_subject = none) :
    (create_subject p n g).1 = true ∧
    ((get_active_subject (create_subject p n g).2).1).map Subject.key
      = some (some (normalizeKey n)) := by
  have hk : hasKey p.subjects (normalizeKey n) = false := by rw [hs]; rfl
  rw [create_subject_new p n g hk]
  refine ⟨rfl, ?_⟩
  rw [hs, ha]
  simp [get_active_subject, findSubject, updateSubject]

/-- C1 witness: instantiation at the display name `"Pokemon Biology"`
on a fresh profile. -/
theorem C1_witness :
    (Profile.empty.subjects = [] ∧ Profile.empty.active_subject = none) ∧
    (create_subject Profile.empty "Pokemon Biology" "Pokemon").1 = true ∧
    ((get_active_subject (create_subject Profile.empty "Pokemon Biology" "Pokemon").2).1).map
        Subject.key
      = some (some (normalizeKey "Pokemon Biology")) :=
  ⟨⟨rfl, rfl⟩, C1_first_subject_key Profile.empty "Pokemon Biology" "Pokemon" rfl rfl⟩

/-- C2: creating a subject whose normalized key already exists fails
(the `False` return models `AlreadyExists`) and the entire profile —
the existing subject record, its question bank, and the active
subject — is returned unchanged: no partial mutation on failure. -/
theorem C2_duplicate_create_no_mutation (p : Profile) (n g : String)
    (h : hasKey p.subjects (normalizeKey n) = true) :
    create_subject p n g = (false, p) :=
  create_subject_dup p n g h

/-- C2 witness: a second `create_subject "Math"` on a profile already
holding the key `"math"` fails and leaves the profile intact. -/
theorem C2_witness :
    hasKey (Profile.mk [("math", Subject.fresh "Math" "g")] (some "math")).subjects
      (normalizeKey "Math") = true ∧
    create_subject (Profile.mk [("math", Subject.fresh "Math" "g")] (some "math")) "Math" "g2"
      = (false, Profile.mk [("math", Subject.fresh "Math" "g")] (some "math")) :=
  ⟨by decide,
   C2_duplicate_create_no_mutation (Profile.mk [("math", Subject.fresh "Math" "g")] (some "math"))
     "Math" "g2" (by decide)⟩

/-- C3: deleting an existing subject succeeds; when the deleted subject
was the active one, the new active subject is deterministically the
first remaining subject in insertion order — a key present in the
remaining table — or `none` when no subjects remain; deleting a
non-active subject leaves the active subject unchanged. -/
theorem C3_delete_active_reassignment (p : Profile) (n : String)
    (h : hasKey p.subjects (normalizeKey n) = true) :
    (delete_subject p n).1 = true ∧
    (delete_subject p n).2.subjects
      = p.subjects.filter (fun e => decide (e.1 ≠ normalizeKey n)) ∧
    (p.active_subject = some (normalizeKey n) →
      p.subjects.filter (fun e => decide (e.1 ≠ normalizeKey n)) = [] →
      (delete_subject p n).2.active_subject = none) ∧
    (∀ e es, p.active_subject = some (normalizeKey n) →
      p.subjects.filter (fun x => decide (x.1 ≠ normalizeKey n)) = e :: es →
      (delete_subject p n).2.active_subject = some e.1 ∧
      hasKey (delete_subject p n).2.subjects e.1 = true) ∧
    (p.active_subject ≠ some (normalizeKey n) →
      (delete_subject p n).2.active_subject = p.active_subject) := by
  rw [delete_subject_present p n h]
  refine ⟨rfl, rfl, ?_, ?_, ?_⟩
  · intro hact hrem
    simp only [decide_not] at hrem
    simp [hact, hrem]
  · intro e es hact hrem
    have hrem2 := hrem
    simp only [decide_not] at hrem2
    refine ⟨by simp [hact, hrem2], ?_⟩
    simp only [hrem]
    exact hasKey_cons_self e es
  · intro hact
    simp [hact]

/-- C3 witness: a profile with subjects `a`, `b` (in that insertion
order) and `a` active; deleting `a` reassigns the active subject to
`b`. -/
theorem C3_witness :
    hasKey (Profile.mk [("a", Subject.fresh "A" "g"), ("b", Subject.fresh "B" "g")]
        (some "a")).subjects (normalizeKey "a") = true ∧
    (delete_subject (Profile.mk [("a", Subject.fresh "A" "g"), ("b", Subject.fresh "B" "g")]
        (some "a")) "a").2.active_subject = some "b" := by
  refine ⟨by decide, ?_⟩
  have h := C3_delete_active_reassignment
    (Profile.mk [("a", Subject.fresh "A" "g"), ("b", Subject.fresh "B" "g")] (some "a")) "a"
    (by decide)
  exact (h.2.2.2.1 ("b", Subject.fresh "B" "g") [] (by decide) (by decide)).1

/-- Every single profile operation preserves the active-subject
invariant. -/
theorem activeInv_applyOp (p : Profile) (op : Op) (h : ActiveInv p) :
    ActiveInv (applyOp p op) := by
  cases op with
  | create n g =>
    by_cases hk : hasKey p.subjects (normalizeKey n) = true
    · simpa [applyOp, create_subject_dup p n g hk] using h
    · have hnew := create_subject_new p n g (Bool.eq_false_iff.mpr hk)
      intro a ha
      simp only [applyOp, hnew] at ha ⊢
      rw [hasKey_append]
      by_cases hact : p.active_subject = none
      · rw [if_pos hact] at ha
        have hak : a = normalizeKey n := (Option.some.inj ha).symm
        simp [hasKey, hak]
      · rw [if_neg hact] at ha
        simp [h a ha]
  | setActive n =>
    by_cases hk : hasKey p.subjects (normalizeKey n) = true
    · intro a ha
      simp only [applyOp, set_active_subject, if_pos hk] at ha ⊢
      have hak : a = normalizeKey n := (Option.some.inj ha).symm
      rw [hak]
      exact hk
    · intro a ha
      simp only [applyOp, set_active_subject, if_neg hk] at ha ⊢
      exact h a ha
  | getActive =>
    intro a ha
    have hs := get_active_subject_state p
    simp only [applyOp] at ha ⊢
    rw [hs.2 a]
    exact h a (by rw [← hs.1]; exact ha)
  | setGame k g =>
    intro a ha
    simp only [applyOp, set_subject_game] at ha ⊢
    cases hf : findSubject p.subjects k with
    | none => simp only [hf] at ha ⊢; exact h a ha
    | some s =>
      simp only [hf] at ha ⊢
      rw [hasKey_updateSubject]
      exact h a ha
  | addQ k q =>
    intro a ha
    simp only [applyOp, add_question_to_bank] at ha ⊢
    cases hf : findSubject p.subjects k with
    | none => simp only [hf] at ha ⊢; exact h a ha
    | some s =>
      simp only [hf] at ha ⊢
      rw [hasKey_updateSubject]
      exact h a ha
  | removeQ k i =>
    intro a ha
    simp only [applyOp, remove_question_from_bank] at ha ⊢
    cases hf : findSubject p.subjects k with
    | none => simp only [hf] at ha ⊢; exact h a ha
    | some s =>
      simp only [hf] at ha ⊢
      by_cases hidx : (0 ≤ i ∧ i < (s.question_bank.length : Int))
      · simp only [if_pos hidx] at ha ⊢
        rw [hasKey_updateSubject]
        exact h a ha
      · simp only [if_neg hidx] at ha ⊢
        exact h a ha
  | delete n =>
    by_cases hk : hasKey p.subjects (normalizeKey n) = true
    · have hd := delete_subject_present p n hk
      intro a ha
      simp only [applyOp, hd] at ha ⊢
      by_cases hact : p.active_subject = some (normalizeKey n)
      · rw [if_pos hact] at ha
        cases hrem : p.subjects.filter (fun e => decide (e.1 ≠ normalizeKey n)) with
        | nil => rw [hrem] at ha; simp at ha
        | cons e es =>
          rw [hrem] at ha
          simp only [] at ha
          have hae : a = e.1 := (Option.some.inj ha).symm
          rw [hae]
          exact hasKey_cons_self e es
      · rw [if_neg hact] at ha
        have hane : a ≠ normalizeKey n := by
          intro hh
          exact hact (by rw [← hh]; exact ha)
        exact hasKey_filter_ne p.subjects a (normalizeKey n) (h a ha) hane
    · simp only [applyOp, delete_subject_absent p n (Bool.eq_false_iff.mpr hk)]
      exact h

/-- C4: for every reachable profile state, a set active subject names a
key present in the subjects table; the invariant holds at the fresh
profile and is preserved by every profile operation (`create_subject`,
`set_active_subject`, `delete_subject`, `get_active_subject`, and the
question-bank and game mutations). -/
theorem C4_active_subject_invariant (p : Profile) (hp : Reachable p) : ActiveInv p := by
  induction hp with
  | init =>
    intro k hk
    simp [Profile.empty] at hk
  | step op _ ih => exact activeInv_applyOp _ op ih

/-- C4 witness: the invariant at the reachable profile obtained by one
`create_subject "Math"` on the fresh profile. -/
theorem C4_witness : ActiveInv (applyOp Profile.empty (Op.create "Math" "g")) :=
  C4_active_subject_invariant _ (Reachable.step (Op.create "Math" "g") Reachable.init)

theorem remove_question_from_bank_found (p : Profile) (k : String) (s : Subject) (index : Int)
    (hs : findSubject p.subjects k = some s)
    (hidx : 0 ≤ index ∧ index < (s.question_bank.length : Int)) :
    remove_question_from_bank p k index =
      (true, { p with subjects := updateSubject p.subjects k { s with question_bank := s.question_bank.eraseIdx index.toNat } }) := by
  simp [remove_question_from_bank, hs, hidx]

theorem remove_question_from_bank_oob (p : Profile) (k : String) (s : Subject) (index : Int)
    (hs : findSubject p.subjects k = some s)
    (hidx : ¬ (0 ≤ index ∧ index < (s.question_bank.length : Int))) :
    remove_question_from_bank p k index = (false, p) := by
  simp only [remove_question_from_bank, hs]
  rw [if_neg hidx]

theorem add_question_to_bank_found (p : Profile) (k q : String) (s : Subject)
    (hs : findSubject p.subjects k = some s) :
    add_question_to_bank p k q =
      (true, { p with subjects := updateSubject p.subjects k { s with question_bank := s.question_bank ++ [q] } }) := by
  simp [add_question_to_bank, hs]

/-- C5: the `!removeq` handler takes a 1-based display index and
translates it to a 0-based index internally; `add_question_to_bank`
followed by `remove_question` at display index 1 succeeds and removes
the first (head) question of the bank; any out-of-range display index —
including index 1 on an empty bank, since `1 ≤ n ∧ n ≤ length` then
fails — returns failure without a crash and leaves the profile, and so
the bank length, unchanged. -/
theorem C5_remove_question_indexing (p : Profile) (k q : String) (s : Subject) (n : Int)
    (hs : findSubject p.subjects k = some s) :
    remove_question p k n = remove_question_from_bank p k (n - 1) ∧
    (remove_question (add_question_to_bank p k q).2 k 1).1 = true ∧
    get_question_bank (remove_question (add_question_to_bank p k q).2 k 1).2 k
      = (s.question_bank ++ [q]).drop 1 ∧
    (¬ (1 ≤ n ∧ n ≤ (s.question_bank.length : Int)) →
      remove_question p k n = (false, p)) := by
  have hfind1 : findSubject (updateSubject p.subjects k { s with question_bank := s.question_bank ++ [q] }) k = some { s with question_bank := s.question_bank ++ [q] } :=
    findSubject_updateSubject_self p.subjects k _ s hs
  have hcond : (0:Int) ≤ 1 - 1 ∧ (1:Int) - 1 < ((s.question_bank ++ [q]).length : Int) := by
    refine ⟨by norm_num, ?_⟩
    push_cast [List.length_append, List.length_cons, List.length_nil]
    omega
  have hnat : ((1:Int) - 1).toNat = 0 := rfl
  have hrq : remove_question (add_question_to_bank p k q).2 k 1 =
      (true, { p with subjects := updateSubject (updateSubject p.subjects k { s with question_bank := s.question_bank ++ [q] }) k { s with question_bank := (s.question_bank ++ [q]).eraseIdx 0 } }) := by
    rw [add_question_to_bank_found p k q s hs]
    show remove_question_from_bank _ k (1 - 1) = _
    rw [remove_question_from_bank_found _ k _ (1 - 1) hfind1 hcond]
    simp [hnat]
  refine ⟨rfl, ?_, ?_, ?_⟩
  · rw [hrq]
  · rw [hrq]
    have hfind2 := findSubject_updateSubject_self
      (updateSubject p.subjects k { s with question_bank := s.question_bank ++ [q] }) k
      { s with question_bank := (s.question_bank ++ [q]).eraseIdx 0 }
      { s with question_bank := s.question_bank ++ [q] } hfind1
    simp only [get_question_bank, hfind2]
    exact eraseIdx_zero_eq_drop (s.question_bank ++ [q])
  · intro hn
    have hidx : ¬ (0 ≤ n - 1 ∧ n - 1 < (s.question_bank.length : Int)) := by omega
    show remove_question_from_bank p k (n - 1) = (false, p)
    exact remove_question_from_bank_oob p k s (n - 1) hs hidx

/-- A concrete subject with a two-question bank, for the C5 witness. -/
def sampleBankSubject : Subject :=
  { name := "M", game := "g", created := true, question_bank := ["q1", "q2"], key := none }

/-- A concrete profile holding `sampleBankSubject` under key `"m"`. -/
def sampleBankProfile : Profile :=
  { subjects := [("m", sampleBankSubject)], active_subject := some "m" }

/-- C5 witness: on the bank `["q1", "q2"]`, adding `"q3"` and removing
display index 1 drops the first question, and display index 10 (out of
range) fails leaving the profile unchanged. -/
theorem C5_witness :
    findSubject sampleBankProfile.subjects "m" = some sampleBankSubject ∧
    ¬ ((1:Int) ≤ 10 ∧ (10:Int) ≤ ((sampleBankSubject.question_bank.length : Nat) : Int)) ∧
    get_question_bank (remove_question (add_question_to_bank sampleBankProfile "m" "q3").2 "m" 1).2 "m"
      = (["q1", "q2"] ++ ["q3"]).drop 1 ∧
    remove_question sampleBankProfile "m" 10 = (false, sampleBankProfile) := by
  refine ⟨by decide, by decide, ?_, ?_⟩
  · exact (C5_remove_question_indexing sampleBankProfile "m" "q3" sampleBankSubject 10 (by decide)).2.2.1
  · exact (C5_remove_question_indexing sampleBankProfile "m" "q3" sampleBankSubject 10 (by decide)).2.2.2 (by decide)

/-- C6: a filename not ending in `.pdf` is rejected before any write
(the whole state is unchanged); an accepted `.pdf` upload for a user
with an active subject succeeds, stores the content under the active
subject's category namespace keyed by the filename, and the name appears
in the `list_files` listing; the write replaces any prior content under
the same path wholesale — so re-uploading the same name overwrites it —
while the content of every other path is untouched. -/
theorem C6_upload_store_list (st : SysState) (fname content folder_type k : String) (s : Subject)
    (hact : st.profile.active_subject = some k)
    (hfind : findSubject st.profile.subjects k = some s) :
    (pyEndsWith fname ".pdf" = false → save_attachment fname content folder_type st = (false, st)) ∧
    (pyEndsWith fname ".pdf" = true →
      (save_attachment fname content folder_type st).1 = true ∧
      lookupDoc (save_attachment fname content folder_type st).2.docs ⟨k, catOf folder_type, fname⟩ = some content ∧
      pdfStem fname ∈ (list_files folder_type (save_attachment fname content folder_type st).2).1 ∧
      (∀ other, other ≠ DocPath.mk k (catOf folder_type) fname →
        lookupDoc (save_attachment fname content folder_type st).2.docs other = lookupDoc st.docs other)) := by
  constructor
  · intro hpdf
    simp [save_attachment, hpdf]
  · intro hpdf
    have hga := get_active_subject_eq st.profile k s hact hfind
    have hsave : save_attachment fname content folder_type st =
        (true, { profile := { st.profile with subjects := updateSubject st.profile.subjects k { s with key := some k } },
                 docs := writeFile st.docs ⟨k, catOf folder_type, fname⟩ content }) := by
      simp [save_attachment, hpdf, hga]
    have hact2 : ({ st.profile with subjects := updateSubject st.profile.subjects k { s with key := some k } } : Profile).active_subject = some k := hact
    have hfind2 : findSubject ({ st.profile with subjects := updateSubject st.profile.subjects k { s with key := some k } } : Profile).subjects k = some { s with key := some k } :=
      findSubject_updateSubject_self st.profile.subjects k _ s hfind
    have hga2 := get_active_subject_eq _ k _ hact2 hfind2
    refine ⟨by rw [hsave], ?_, ?_, ?_⟩
    · rw [hsave]
      exact lookupDoc_writeFile_self st.docs _ content
    · have hmem : ((⟨k, catOf folder_type, fname⟩ : DocPath), content) ∈ writeFile st.docs ⟨k, catOf folder_type, fname⟩ content :=
        mem_writeFile_self st.docs _ content

      have hmemf : ((⟨k, catOf folder_type, fname⟩ : DocPath), content) ∈ globPdf (writeFile st.docs ⟨k, catOf folder_type, fname⟩ content) k (catOf folder_type) := by
        simp only [globPdf]
        refine List.mem_filter.mpr ⟨hmem, ?_⟩
        simp [pdfGlobMatch, hpdf]
      have hlist : (list_files folder_type (save_attachment fname content folder_type st).2).1
          = (globPdf (writeFile st.docs ⟨k, catOf folder_type, fname⟩ content) k (catOf folder_type)).map (fun e => pdfStem e.1.filename) := by
        rw [hsave]
        simp [list_files, hga2]
      rw [hlist]
      exact List.mem_map_of_mem (fun e => pdfStem e.1.filename) hmemf
    · intro other hother
      rw [hsave]
      exact lookupDoc_writeFile_ne st.docs _ other content hother

/-- A concrete profile with one subject `"m"` active, for the C6
witness. -/
def sampleDocProfile : Profile :=
  { subjects := [("m", Subject.fresh "M" "g")], active_subject := some "m" }

/-- A document store already holding `notes.pdf` and `other.pdf` in the
lectures collection of subject `"m"`. -/
def sampleDocs : DocStore :=
  [(⟨"m", "lectures", "notes.pdf"⟩, "old"), (⟨"m", "lectures", "other.pdf"⟩, "x")]

/-- The C6 witness state. -/
def sampleSys : SysState := { profile := sampleDocProfile, docs := sampleDocs }

/-- C6 witness: `notes.txt` is rejected; re-uploading `notes.pdf` with
new content succeeds, replaces the old content, shows up in the listing,
and leaves `other.pdf` untouched; a dot-prefixed `.hidden.pdf` upload is
also accepted and listed, matching `pathlib.Path.glob`. -/
theorem C6_witness :
    save_attachment "notes.txt" "c" "lecture" sampleSys = (false, sampleSys) ∧
    (save_attachment "notes.pdf" "new" "lecture" sampleSys).1 = true ∧
    lookupDoc (save_attachment "notes.pdf" "new" "lecture" sampleSys).2.docs ⟨"m", catOf "lecture", "notes.pdf"⟩ = some "new" ∧
    pdfStem "notes.pdf" ∈ (list_files "lecture" (save_attachment "notes.pdf" "new" "lecture" sampleSys).2).1 ∧
    lookupDoc (save_attachment "notes.pdf" "new" "lecture" sampleSys).2.docs ⟨"m", "lectures", "other.pdf"⟩ = some "x" ∧
    (save_attachment ".hidden.pdf" "h" "lecture" sampleSys).1 = true ∧
    pdfStem ".hidden.pdf" ∈ (list_files "lecture" (save_attachment ".hidden.pdf" "h" "lecture" sampleSys).2).1 := by
  have h1 := C6_upload_store_list sampleSys "notes.txt" "c" "lecture" "m" (Subject.fresh "M" "g") rfl (by decide)
  have h2 := C6_upload_store_list sampleSys "notes.pdf" "new" "lecture" "m" (Subject.fresh "M" "g") rfl (by decide)
  have h3 := C6_upload_store_list sampleSys ".hidden.pdf" "h" "lecture" "m" (Subject.fresh "M" "g") rfl (by decide)
  refine ⟨h1.1 (by decide), (h2.2 (by decide)).1, (h2.2 (by decide)).2.1,
    (h2.2 (by decide)).2.2.1, ?_, (h3.2 (by decide)).1, (h3.2 (by decide)).2.2.1⟩
  exact (h2.2 (by decide)).2.2.2 ⟨"m", "lectures", "other.pdf"⟩ (by decide)

/-- The extraction collaborator used in the C7 theorems: it raises on
the content `"BAD"` and succeeds on everything else. -/
def corruptExt : String → Option String := fun c => if c = "BAD" then none else some c

/-- The C7 state: the active subject `"m"` has one valid and one corrupt
lecture document. -/
def sampleLecSys : SysState :=
  { profile := { subjects := [("m", Subject.fresh "M" "g")], active_subject := some "m" },
    docs := [(⟨"m", "lectures", "good.pdf"⟩, "G"), (⟨"m", "lectures", "bad.pdf"⟩, "BAD")] }

/-- C7, counterexample: over a collection with one valid (`good.pdf`)
and one corrupt (`bad.pdf`) document, aggregate extraction does not
omit the failed document from the result mapping: `bad` appears, keyed
by its stem, with its citation header and empty extracted content. -/
theorem C7_counterexample :
    (get_all_lectures_with_names corruptExt sampleLecSys).1
      = [("good", "[SOURCE: good]\nG\n"), ("bad", "[SOURCE: bad]\n")] ∧
    "bad" ∈ ((get_all_lectures_with_names corruptExt sampleLecSys).1).map Prod.fst :=
  ⟨by decide, by decide⟩

/-- C7, amended: aggregate extraction annotates each document of the
active subject's lecture collection with its bracketed SOURCE citation
header; a per-document extraction failure does not abort extraction of
the other documents — every successfully extracted document still
appears, annotated, in the result — but a failed document is not
omitted: it appears with its citation header and empty extracted
text. -/
theorem C7_extraction_per_document (ext : String → Option String) (st : SysState) (k : String)
    (s : Subject) (hact : st.profile.active_subject = some k)
    (hfind : findSubject st.profile.subjects k = some s) :
    (∀ e ∈ globPdf st.docs k "lectures", ∀ t, ext e.2 = some t →
      (pdfStem e.1.filename, "[SOURCE: " ++ pdfStem e.1.filename ++ "]\n" ++ (t ++ "\n"))
        ∈ (get_all_lectures_with_names ext st).1) ∧
    (∀ e ∈ globPdf st.docs k "lectures", ext e.2 = none →
      (pdfStem e.1.filename, "[SOURCE: " ++ pdfStem e.1.filename ++ "]\n")
        ∈ (get_all_lectures_with_names ext st).1) := by
  have hga := get_active_subject_eq st.profile k s hact hfind
  have hres : (get_all_lectures_with_names ext st).1
      = (globPdf st.docs k "lectures").map (fun e => (pdfStem e.1.filename, "[SOURCE: " ++ pdfStem e.1.filename ++ "]\n" ++ extract_text_from_pdf ext e.2)) := by
    simp [get_all_lectures_with_names, hga]
  constructor
  · intro e he t ht
    rw [hres]
    have hval : (pdfStem e.1.filename, "[SOURCE: " ++ pdfStem e.1.filename ++ "]\n" ++ (t ++ "\n"))
        = (fun x : DocPath × String => (pdfStem x.1.filename, "[SOURCE: " ++ pdfStem x.1.filename ++ "]\n" ++ extract_text_from_pdf ext x.2)) e := by
      simp [extract_text_from_pdf, ht]
    rw [hval]
    exact List.mem_map_of_mem _ he
  · intro e he ht
    rw [hres]
    have hval : (pdfStem e.1.filename, "[SOURCE: " ++ pdfStem e.1.filename ++ "]\n")
        = (fun x : DocPath × String => (pdfStem x.1.filename, "[SOURCE: " ++ pdfStem x.1.filename ++ "]\n" ++ extract_text_from_pdf ext x.2)) e := by
      simp [extract_text_from_pdf, ht]
    rw [hval]
    exact List.mem_map_of_mem _ he

/-- C7 witness: in the two-document collection, the valid document
appears annotated with its extracted text, and the corrupt one appears
with header and empty text; neither aborted the other. -/
theorem C7_witness :
    ((⟨"m", "lectures", "good.pdf"⟩ : DocPath), "G") ∈ globPdf sampleLecSys.docs "m" "lectures" ∧
    corruptExt "G" = some "G" ∧ corruptExt "BAD" = none ∧
    (pdfStem "good.pdf", "[SOURCE: " ++ pdfStem "good.pdf" ++ "]\n" ++ ("G" ++ "\n"))
      ∈ (get_all_lectures_with_names corruptExt sampleLecSys).1 ∧
    (pdfStem "bad.pdf", "[SOURCE: " ++ pdfStem "bad.pdf" ++ "]\n")
      ∈ (get_all_lectures_with_names corruptExt sampleLecSys).1 := by
  have h := C7_extraction_per_document corruptExt sampleLecSys "m" (Subject.fresh "M" "g") rfl (by decide)
  refine ⟨by decide, by decide, by decide, ?_, ?_⟩
  · exact h.1 (⟨"m", "lectures", "good.pdf"⟩, "G") (by decide) "G" (by decide)
  · exact h.2 (⟨"m", "lectures", "bad.pdf"⟩, "BAD") (by decide) (by decide)

/-- A state whose profile has a subject and stored documents but no
active subject, for the C8 theorems. -/
def noActiveSys : SysState :=
  { profile := { subjects := [("m", Subject.fresh "M" "g")], active_subject := none },
    docs := [(⟨"m", "lectures", "notes.pdf"⟩, "c")] }

/-- C8, counterexample: with no active subject, uploading a valid PDF
returns the plain boolean `False` (indistinguishable from any other
failure), and listing and aggregate reading return plain empty results —
exactly the silent empty and degenerate values the claim says these
operations do not return; no distinct NoActiveSubject error appears in
any of these return values. -/
theorem C8_counterexample :
    save_attachment "notes.pdf" "c" "lecture" noActiveSys = (false, noActiveSys) ∧
    (list_files "lecture" noActiveSys).1 = [] ∧
    (get_all_lectures_with_names (fun c => some c) noActiveSys).1 = [] :=
  ⟨by decide, by decide, by decide⟩

/-- C8, amended: every facade operation whose meaning requires an
active subject (`save_attachment`, `list_files`,
`get_all_lectures_with_names`), invoked for a user with no active
subject, silently returns a degenerate result — `False`, `[]`, the
empty mapping — with the state unchanged, rather than failing with a
distinct NoActiveSubject error. -/
theorem C8_no_active_subject_degenerate (st : SysState) (fname content folder_type : String)
    (ext : String → Option String) (h : st.profile.active_subject = none) :
    save_attachment fname content folder_type st = (false, st) ∧
    list_files folder_type st = ([], st) ∧
    get_all_lectures_with_names ext st = ([], st) := by
  have hga : get_active_subject st.profile = (none, st.profile) := by
    simp [get_active_subject, h]
  refine ⟨?_, ?_, ?_⟩
  · by_cases hpdf : pyEndsWith fname ".pdf" = true
    · simp [save_attachment, hpdf, hga]
    · simp [save_attachment, Bool.eq_false_iff.mpr hpdf]
  · simp [list_files, hga]
  · simp [get_all_lectures_with_names, hga]

/-- C8 witness: the amended statement instantiated at the concrete
no-active-subject state. -/
theorem C8_witness :
    noActiveSys.profile.active_subject = none ∧
    save_attachment "other.pdf" "d" "practice" noActiveSys = (false, noActiveSys) ∧
    list_files "practice" noActiveSys = ([], noActiveSys) ∧
    get_all_lectures_with_names (fun c => some c) noActiveSys = ([], noActiveSys) := by
  have h := C8_no_active_subject_degenerate noActiveSys "other.pdf" "d" "practice"
    (fun c => some c) rfl
  exact ⟨rfl, h.1, h.2.1, h.2.2⟩

/-- C9, counterexample: starting from an empty profile flushed to disk,
`create_subject "Math"` with a flush that fails mid-write lets the raw
exception escape while the in-memory profile already holds the new
subject (and the file is left truncated) — the in-memory state does not
remain as it was before the attempted mutation, and no distinct
PersistenceFailure kind exists. -/
theorem C9_counterexample :
    applyOpP false DiskFile.corrupt (PState.mk Profile.empty (DiskFile.table Profile.empty)) (Op.create "Math" "g")
      = SaveOutcome.ioError (PState.mk (Profile.mk [("math", Subject.fresh "Math" "g")] (some "math")) DiskFile.corrupt) ∧
    Profile.mk [("math", Subject.fresh "Math" "g")] (some "math") ≠ Profile.empty :=
  ⟨by decide, by decide⟩

/-- C9, amended: for every mutating profile operation (create, switch,
delete, game and question-bank mutations), if the operation reaches its
durable write and the flush fails with an I/O error, the raw exception
propagates to the caller (no distinct PersistenceFailure kind is
produced), the in-memory profile keeps the attempted mutation, and the
profiles file is left in the unspecified state of the interrupted
write — the prior content only if `open` itself failed, otherwise
truncated or partial bytes; in no failure mode is the in-memory state
rolled back. -/
theorem C9_failed_flush_keeps_mutation (st : PState) (op : Op) (leftover : DiskFile)
    (h : opSaves st.mem op = true) :
    applyOpP false leftover st op
      = SaveOutcome.ioError (PState.mk (applyOp st.mem op) leftover) := by
  simp [applyOpP, save_profiles, h]

/-- C9 witness: the amended statement at the empty starting state for
`create_subject "Math"`, with the failing flush leaving a truncated
file. -/
theorem C9_witness :
    opSaves Profile.empty (Op.create "Math" "g") = true ∧
    applyOpP false DiskFile.corrupt (PState.mk Profile.empty (DiskFile.table Profile.empty)) (Op.create "Math" "g")
      = SaveOutcome.ioError (PState.mk (applyOp Profile.empty (Op.create "Math" "g")) DiskFile.corrupt) :=
  ⟨by decide,
   C9_failed_flush_keeps_mutation (PState.mk Profile.empty (DiskFile.table Profile.empty))
     (Op.create "Math" "g") DiskFile.corrupt (by decide)⟩

/-- C10: `get_active_subject` is not a pure query: it writes the `key`
field into the stored subject record itself, so the returned record and
the record now stored in the profile are the same key-carrying value,
and the next successful `_save_profiles` persists the added field to
the disk copy. -/
theorem C10_get_active_mutates_and_persists (st : PState) (k : String) (s : Subject)
    (h1 : st.mem.active_subject = some k) (h2 : findSubject st.mem.subjects k = some s) :
    (get_active_subjectP st).1 = some { s with key := some k } ∧
    findSubject (get_active_subjectP st).2.mem.subjects k = some { s with key := some k } ∧
    ∀ leftover st2, save_profiles true leftover (get_active_subjectP st).2 = Except.ok st2 →
      st2.disk = DiskFile.table (get_active_subjectP st).2.mem ∧
      ∀ pr, st2.disk = DiskFile.table pr → findSubject pr.subjects k = some { s with key := some k } := by
  have hga := get_active_subject_eq st.mem k s h1 h2
  have hupd : findSubject (updateSubject st.mem.subjects k { s with key := some k }) k
      = some { s with key := some k } :=
    findSubject_updateSubject_self st.mem.subjects k _ s h2
  refine ⟨?_, ?_, ?_⟩
  · simp [get_active_subjectP, hga]
  · simp only [get_active_subjectP, hga]
    exact hupd
  · intro leftover st2 hs2
    have hdef : save_profiles true leftover (get_active_subjectP st).2
        = Except.ok { (get_active_subjectP st).2 with disk := DiskFile.table (get_active_subjectP st).2.mem } := rfl
    rw [hdef] at hs2
    have hst2 := Except.ok.inj hs2
    rw [← hst2]
    refine ⟨rfl, ?_⟩
    intro pr hpr
    have hpr2 : pr = (get_active_subjectP st).2.mem := (DiskFile.table.inj hpr).symm
    rw [hpr2]
    simp only [get_active_subjectP, hga]
    exact hupd

/-- The C10 witness state: subject `"m"` active, its stored record not
yet carrying a `key` field, and a disk copy in the same state. -/
def sampleP10 : PState :=
  PState.mk (Profile.mk [("m", Subject.fresh "M" "g")] (some "m"))
    (DiskFile.table (Profile.mk [("m", Subject.fresh "M" "g")] (some "m")))

/-- C10 witness: before the read the stored record has `key := none`;
after `get_active_subject` the returned and the stored record both carry
`key := some "m"`, and a following successful save writes it to disk. -/
theorem C10_witness :
    sampleP10.mem.active_subject = some "m" ∧
    findSubject sampleP10.mem.subjects "m" = some (Subject.fresh "M" "g") ∧
    (Subject.fresh "M" "g").key = none ∧
    (get_active_subjectP sampleP10).1 = some { Subject.fresh "M" "g" with key := some "m" } ∧
    findSubject (get_active_subjectP sampleP10).2.mem.subjects "m"
      = some { Subject.fresh "M" "g" with key := some "m" } := by
  have h := C10_get_active_mutates_and_persists sampleP10 "m" (Subject.fresh "M" "g") rfl (by decide)
  exact ⟨rfl, by decide, rfl, h.1, h.2.1⟩

end StudyCapy
